import Mathlib

/-
Verification of the element-volume chunked transfer engine.

Shallow embedding of the code in `element_volume/export/bossdb.py` and
`element_volume/readers/bossdb.py`: the chunk planner implicit in the upload
loop, the retry loop, the top-level upload control flow, the range-key
parser/serializer, the zoom-region registry, the slice exporter and the
download metadata recorder.  Machine integers are modelled as Nat/Int;
fallible Python code returns Except/Option values.
-/

set_option linter.unusedVariables false

/-! ### Chunk planner (export/bossdb.py, lines 76-78)

`for i in tqdm(range(0, z_max, upload_increment)):`
`    z_limit = min(i + upload_increment, z_max)`

`pyRange start stop step` is Python's `range(start, stop, step)` for a
positive step; each loop iteration handles the half-open Z range
`[i, z_limit)`. -/

def pyRange (start stop step : Nat) : List Nat :=
  if h : 0 < step ∧ start < stop then start :: pyRange (start + step) stop step else []
termination_by stop - start
decreasing_by omega

lemma pyRange_eq (start stop step : Nat) :
    pyRange start stop step =
      if 0 < step ∧ start < stop then start :: pyRange (start + step) stop step else [] := by
  rw [pyRange]
  split <;> simp_all

/-- The ordered sequence of Z chunk ranges produced by the upload loop:
`[i, min (i + increment) total)` for `i = 0, increment, 2*increment, ...`. -/
def plan (total increment : Nat) : List (Nat × Nat) :=
  (pyRange 0 total increment).map (fun i => (i, min (i + increment) total))

/-- `isChain lo hi l`: the ranges of `l` are contiguous, non-empty, and tile
exactly the half-open interval `[lo, hi)`. -/
def isChain (lo hi : Nat) : List (Nat × Nat) → Prop
  | [] => lo = hi
  | c :: rest => c.1 = lo ∧ lo < c.2 ∧ isChain c.2 hi rest

lemma isChain_le : ∀ (l : List (Nat × Nat)) (lo hi : Nat), isChain lo hi l → lo ≤ hi := by
  intro l
  induction l with
  | nil => intro lo hi h; exact Nat.le_of_eq h
  | cons c rest ih =>
    intro lo hi h
    obtain ⟨h1, h2, h3⟩ := h
    have := ih c.2 hi h3
    omega

lemma isChain_bounds : ∀ (l : List (Nat × Nat)) (lo hi : Nat), isChain lo hi l →
    ∀ c ∈ l, lo ≤ c.1 ∧ c.1 < c.2 ∧ c.2 ≤ hi := by
  intro l
  induction l with
  | nil => intro lo hi _ c hc; simp at hc
  | cons a rest ih =>
    intro lo hi h c hc
    obtain ⟨h1, h2, h3⟩ := h
    rcases List.mem_cons.mp hc with rfl | hmem
    · exact ⟨Nat.le_of_eq h1.symm, by omega, isChain_le rest c.2 hi h3⟩
    · have := ih a.2 hi h3 c hmem
      omega

lemma isChain_pairwise : ∀ (l : List (Nat × Nat)) (lo hi : Nat), isChain lo hi l →
    l.Pairwise (fun c d => c.1 < d.1 ∧ c.2 ≤ d.1) := by
  intro l
  induction l with
  | nil => intro lo hi _; exact List.Pairwise.nil
  | cons a rest ih =>
    intro lo hi h
    obtain ⟨h1, h2, h3⟩ := h
    refine List.Pairwise.cons ?_ (ih a.2 hi h3)
    intro d hd
    have := isChain_bounds rest a.2 hi h3 d hd
    omega

lemma isChain_cover : ∀ (l : List (Nat × Nat)) (lo hi : Nat), isChain lo hi l →
    ∀ n : Nat, (lo ≤ n ∧ n < hi) ↔ ∃ c, c ∈ l ∧ c.1 ≤ n ∧ n < c.2 := by
  intro l
  induction l with
  | nil =>
    intro lo hi h n
    subst h
    constructor
    · rintro ⟨hn1, hn2⟩; omega
    · rintro ⟨c, hc, _⟩; simp at hc
  | cons a rest ih =>
    intro lo hi h n
    obtain ⟨h1, h2, h3⟩ := h
    have hle := isChain_le rest a.2 hi h3
    have ihn := ih a.2 hi h3 n
    constructor
    · rintro ⟨hn1, hn2⟩
      by_cases hc : n < a.2
      · exact ⟨a, List.mem_cons_self a rest, by omega, hc⟩
      · obtain ⟨d, hd, hdp⟩ := ihn.mp ⟨by omega, hn2⟩
        exact ⟨d, List.mem_cons_of_mem a hd, hdp⟩
    · rintro ⟨d, hd, hd1, hd2⟩
      rcases List.mem_cons.mp hd with rfl | hmem
      · omega
      · have := ihn.mpr ⟨d, hmem, hd1, hd2⟩
        omega

/-- Master induction: chain shape, length and last element of the plan tail
starting at `i`. -/
lemma plan_aux (inc : Nat) (hinc : 0 < inc) :
    ∀ (fuel i total : Nat), total ≤ i + fuel → i < total →
      isChain i total ((pyRange i total inc).map (fun j => (j, min (j + inc) total)))
      ∧ ((pyRange i total inc).map (fun j => (j, min (j + inc) total))).length
          = (total - i + inc - 1) / inc
      ∧ ((pyRange i total inc).map (fun j => (j, min (j + inc) total))).getLast?
          = some (i + inc * ((total - i - 1) / inc), total) := by
  intro fuel
  induction fuel with
  | zero => intro i total h1 h2; omega
  | succ fuel ih =>
    intro i total h1 h2
    rw [pyRange_eq, if_pos ⟨hinc, h2⟩, List.map_cons]
    by_cases hcase : i + inc < total
    · have ihh := ih (i + inc) total (by omega) hcase
      have hmin : min (i + inc) total = i + inc := by omega
      rw [hmin]
      have hne : ((pyRange (i + inc) total inc).map (fun j => (j, min (j + inc) total))) ≠ [] := by
        intro hemp
        have : ((pyRange (i + inc) total inc).map
            (fun j => (j, min (j + inc) total))).getLast? = none := by
          rw [hemp]; rfl
        rw [ihh.2.2] at this
        exact Option.noConfusion this
      refine ⟨⟨rfl, by omega, ihh.1⟩, ?_, ?_⟩
      · rw [List.length_cons, ihh.2.1]
        have e1 : total - i + inc - 1 = (total - (i + inc) + inc - 1) + inc := by omega
        rw [e1, Nat.add_div_right _ hinc]
      · obtain ⟨y, ys, hys⟩ := List.exists_cons_of_ne_nil hne
        rw [hys, List.getLast?_cons_cons, ← hys, ihh.2.2]
        have e2 : total - i - 1 = (total - (i + inc) - 1) + inc := by omega
        rw [e2, Nat.add_div_right _ hinc]
        have : i + inc * ((total - (i + inc) - 1) / inc + 1)
            = i + inc + inc * ((total - (i + inc) - 1) / inc) := by ring
        rw [this]
    · have hmin : min (i + inc) total = total := by omega
      have hempty : pyRange (i + inc) total inc = [] := by
        rw [pyRange_eq, if_neg (by omega)]
      rw [hmin, hempty, List.map_nil]
      have hdiv : (total - i - 1) / inc = 0 := Nat.div_eq_of_lt (by omega)
      refine ⟨⟨rfl, by omega, rfl⟩, ?_, ?_⟩
      · have e1 : total - i + inc - 1 = (total - i - 1) + inc := by omega
        rw [List.length_cons, List.length_nil, e1, Nat.add_div_right _ hinc,
          Nat.div_eq_of_lt (by omega)]
      · rw [hdiv, Nat.mul_zero, Nat.add_zero]
        rfl

lemma pyRange_0_20_8 : pyRange 0 20 8 = [0, 8, 16] := by
  rw [pyRange_eq]
  norm_num
  rw [pyRange_eq]
  norm_num
  rw [pyRange_eq]
  norm_num
  rw [pyRange_eq]
  norm_num

lemma plan_20_8 : plan 20 8 = [(0, 8), (8, 16), (16, 20)] := by
  show (pyRange 0 20 8).map (fun i => (i, min (i + 8) 20)) = _
  rw [pyRange_0_20_8]
  rfl

/-- Claim C1: for every `total > 0` and `increment > 0`, the sequence of Z
chunk ranges produced by the upload loop has `ceil(total/increment)` half-open
ranges that are contiguous, strictly increasing, non-overlapping, cover
exactly `[0, total)`, contain no zero-length range, and whose last range has
length `total - increment * floor((total-1)/increment)`; concretely,
`plan 20 8 = [[0,8),[8,16),[16,20)]`. -/
theorem chunk_plan_correct (total inc : Nat) (ht : 0 < total) (hinc : 0 < inc) :
    (plan total inc).length = (total + inc - 1) / inc
    ∧ isChain 0 total (plan total inc)
    ∧ (∀ c ∈ plan total inc, c.1 < c.2)
    ∧ (plan total inc).Pairwise (fun c d => c.1 < d.1 ∧ c.2 ≤ d.1)
    ∧ (∀ n : Nat, n < total ↔ ∃ c, c ∈ plan total inc ∧ c.1 ≤ n ∧ n < c.2)
    ∧ (plan total inc).getLast? = some (inc * ((total - 1) / inc), total)
    ∧ ((plan total inc).getLast?).map (fun c => c.2 - c.1)
        = some (total - inc * ((total - 1) / inc))
    ∧ plan 20 8 = [(0, 8), (8, 16), (16, 20)] := by
  have haux := plan_aux inc hinc total 0 total (by omega) ht
  have hplan : plan total inc
      = (pyRange 0 total inc).map (fun j => (j, min (j + inc) total)) := rfl
  rw [← hplan] at haux
  have hchain : isChain 0 total (plan total inc) := haux.1
  have hlast : (plan total inc).getLast? = some (inc * ((total - 1) / inc), total) := by
    rw [haux.2.2]
    simp
  refine ⟨?_, hchain, ?_, ?_, ?_, hlast, ?_, plan_20_8⟩
  · rw [haux.2.1]
    simp
  · intro c hc
    exact (isChain_bounds _ 0 total hchain c hc).2.1
  · exact isChain_pairwise _ 0 total hchain
  · intro n
    have := isChain_cover _ 0 total hchain n
    constructor
    · intro hn
      exact this.mp ⟨Nat.zero_le n, hn⟩
    · intro he
      exact (this.mpr he).2
  · rw [hlast]
    rfl

/-- Witness for C1 at `total = 20`, `increment = 8`. -/
theorem chunk_plan_witness : 0 < 20 ∧ 0 < 8 ∧ plan 20 8 = [(0, 8), (8, 16), (16, 20)] := by
  refine ⟨by decide, by decide, ?_⟩
  exact (chunk_plan_correct 20 8 (by decide) (by decide)).2.2.2.2.2.2.2

/-! ### Remote handle construction (readers/bossdb.py, lines 27-34)

```
try:
    _ = super().__init__(channel=channel, **kwargs)
except HTTPError as e:
    if e.response.status_code == 404:
        logger.warning(f"URL does not exist {channel}")
        return False
    else:
        raise e
```

In Python, `__init__` returning a non-None value makes the class call raise
`TypeError: __init__() should return None`; we model the body's outcome and
the class-call semantics separately. -/

/-- What the remote store reports while the handle constructor runs. -/
inductive StoreResp
  | ok | http404 | httpOther
deriving DecidableEq, Repr

/-- Outcome of executing the `__init__` body (lines 27-34). -/
inductive InitOutcome
  | completes      -- super().__init__ succeeded, body runs to the end
  | returnsFalse   -- 404 handler: `return False`
  | reraises       -- non-404 HTTPError: `raise e`
deriving DecidableEq, Repr

def bossDBInterface_init : StoreResp → InitOutcome
  | StoreResp.ok => InitOutcome.completes
  | StoreResp.http404 => InitOutcome.returnsFalse
  | StoreResp.httpOther => InitOutcome.reraises

/-- Result of evaluating `BossDBInterface(url)` as a Python class call. -/
inductive ConstructResult
  | handle      -- a handle object is produced
  | typeError   -- `__init__` returned a non-None value (here: False)
  | httpError   -- the body re-raised the HTTPError
deriving DecidableEq, Repr

def constructBossDBInterface (r : StoreResp) : ConstructResult :=
  match bossDBInterface_init r with
  | InitOutcome.completes => ConstructResult.handle
  | InitOutcome.returnsFalse => ConstructResult.typeError
  | InitOutcome.reraises => ConstructResult.httpError

/-! ### Uploader (export/bossdb.py, lines 15-102) -/

/-- Python-level errors that `bossdb_upload` can raise. -/
inductive UploadErr
  | typeError                      -- `__init__` returned False (line 35 on a missing URL)
  | httpError                      -- non-404 HTTPError re-raised by the constructor
  | valueError                     -- numpy: truth value of a multi-element array (line 68/81)
  | dataJointError                 -- "No images found in the specified directory" (line 71)
  | chunkFailure (zr : Nat × Nat)  -- `raise e` after exhausting retries (line 100)
deriving DecidableEq, Repr

/-- A 3-D numpy array: shape `(z, y, x)` plus the pixel values. -/
structure Arr3 where
  z : Nat
  y : Nat
  x : Nat
  val : Nat → Nat → Nat → Int

/-- Python truthiness of a numpy array: defined only for single-element
arrays; a multi-element array raises
`ValueError: The truth value of an array with more than one element is ambiguous`. -/
def npTruth (a : Arr3) : Except UploadErr Bool :=
  if a.z * a.y * a.x = 1 then Except.ok (decide (a.val 0 0 0 ≠ 0))
  else Except.error UploadErr.valueError

/-- Truthiness of the `raw_data` argument (`np.array = None` default):
`None` is falsy; an array goes through `npTruth`. -/
def rawTruthy : Option Arr3 → Except UploadErr Bool
  | none => Except.ok false
  | some a => npTruth a

/-- `raw_data[i:z_limit]` (Python slice along axis 0, clamped). -/
def arrSliceZ (a : Arr3) (i z_limit : Nat) : Arr3 :=
  ⟨min z_limit a.z - i, a.y, a.x, fun zz yy xx => a.val (i + zz) yy xx⟩

/-- `_np_from_images(image_paths, i, z_limit, dtype)` (lines 105-112):
stacks the decoded images `image_paths[i:z_limit]` along a new axis 0.
`imgVal f r c` is the pixel at row `r`, column `c` of file index `f`; all
images share the shape `(imgY, imgX)`.  `np.stack` of an empty sequence
raises ValueError. -/
def np_from_images (numImages imgY imgX : Nat) (imgVal : Nat → Nat → Nat → Int)
    (i z_limit : Nat) : Except UploadErr Arr3 :=
  let count := min z_limit numImages - i
  if count = 0 then Except.error UploadErr.valueError
  else Except.ok ⟨count, imgY, imgX, fun zz yy xx => imgVal (i + zz) yy xx⟩

/-- Per-iteration materialization of `stack` (lines 80-84):
`raw_data[i:z_limit] if raw_data else _np_from_images(image_paths, i, z_limit, dtype)`. -/
def stackFor (raw_data : Option Arr3) (numImages imgY imgX : Nat)
    (imgVal : Nat → Nat → Nat → Int) (shape_z upload_increment i : Nat) :
    Except UploadErr Arr3 :=
  let z_limit := min (i + upload_increment) shape_z
  match raw_data with
  | some a =>
    match npTruth a with
    | Except.error e => Except.error e
    | Except.ok b =>
      if b then Except.ok (arrSliceZ a i z_limit)
      else np_from_images numImages imgY imgX imgVal i z_limit
  | none => np_from_images numImages imgY imgX imgVal i z_limit

/-- The retry loop (lines 86-102).  `k` is the number of initial attempts for
which the write of this chunk fails before succeeding; `retry_count` is the
loop variable.  Returns `Except.ok totalAttempts` when the write eventually
succeeds (`break`), `Except.error failedAttempts` when `retry_count >
retry_max` re-raises the error. -/
def retryLoop (k retry_max retry_count : Nat) : Except Nat Nat :=
  if h : retry_count < k then
    if retry_count + 1 > retry_max then Except.error (retry_count + 1)
    else retryLoop k retry_max (retry_count + 1)
  else Except.ok (retry_count + 1)
termination_by k - retry_count
decreasing_by omega

lemma retryLoop_eq (k retry_max retry_count : Nat) :
    retryLoop k retry_max retry_count =
      if retry_count < k then
        if retry_count + 1 > retry_max then Except.error (retry_count + 1)
        else retryLoop k retry_max (retry_count + 1)
      else Except.ok (retry_count + 1) := by
  rw [retryLoop]
  split <;> simp_all

lemma retryLoop_ok_aux :
    ∀ (d k rm rc : Nat), k ≤ rm → rc ≤ k → k - rc ≤ d →
      retryLoop k rm rc = Except.ok (k + 1) := by
  intro d
  induction d with
  | zero =>
    intro k rm rc h1 h2 h3
    have hk : rc = k := by omega
    rw [retryLoop_eq, if_neg (by omega), hk]
  | succ d ih =>
    intro k rm rc h1 h2 h3
    by_cases hc : rc < k
    · rw [retryLoop_eq, if_pos hc, if_neg (by omega)]
      exact ih k rm (rc + 1) h1 (by omega) (by omega)
    · have hk : rc = k := by omega
      rw [retryLoop_eq, if_neg (by omega), hk]

/-- If the write fails the first `k ≤ retry_max` attempts then succeeds, the
loop returns success after exactly `k + 1` attempts. -/
lemma retryLoop_ok (k rm : Nat) (hkm : k ≤ rm) :
    ∀ rc, rc ≤ k → retryLoop k rm rc = Except.ok (k + 1) := by
  intro rc hrc
  exact retryLoop_ok_aux (k - rc) k rm rc hkm hrc (Nat.le_refl _)

lemma retryLoop_error_aux :
    ∀ (d k rm rc : Nat), rm < k → rc ≤ rm → rm - rc ≤ d →
      retryLoop k rm rc = Except.error (rm + 1) := by
  intro d
  induction d with
  | zero =>
    intro k rm rc h1 h2 h3
    have hk : rc = rm := by omega
    rw [retryLoop_eq, if_pos (by omega), if_pos (by omega), hk]
  | succ d ih =>
    intro k rm rc h1 h2 h3
    by_cases hc : rc = rm
    · rw [retryLoop_eq, if_pos (by omega), if_pos (by omega), hc]
    · rw [retryLoop_eq, if_pos (by omega), if_neg (by omega)]
      exact ih k rm (rc + 1) h1 (by omega) (by omega)

/-- If the write fails more than `retry_max` times, the loop re-raises after
`retry_max + 1` failed attempts. -/
lemma retryLoop_error (k rm : Nat) (hkm : rm < k) :
    ∀ rc, rc ≤ rm → retryLoop k rm rc = Except.error (rm + 1) := by
  intro rc hrc
  exact retryLoop_error_aux (rm - rc) k rm rc hkm hrc (Nat.le_refl _)

/-- The chunk loop (lines 77-102): for each chunk start `i`, materialize the
stack, then write `boss_dataset[i : i + stack.shape[0], ...] = stack` with
retries.  Returns the list of successfully written Z ranges (with their
attempt counts) and `some err` if the run aborted. -/
def runChunks (retry_max : Nat) (k : Nat → Nat) (stackAt : Nat → Except UploadErr Arr3) :
    List Nat → List ((Nat × Nat) × Nat) × Option UploadErr
  | [] => ([], none)
  | i :: rest =>
    match stackAt i with
    | Except.error e => ([], some e)
    | Except.ok st =>
      match retryLoop (k i) retry_max 0 with
      | Except.error _ => ([], some (UploadErr.chunkFailure (i, i + st.z)))
      | Except.ok n =>
        let r := runChunks retry_max k stackAt rest
        (((i, i + st.z), n) :: r.1, r.2)

/-- Result of `bossdb_upload`: the early-return skip with a warning (lines
36-41), normal completion of the loop, or a raised Python error. -/
inductive UploadResult
  | skipped
  | completed (writes : List ((Nat × Nat) × Nat))
  | raised (writes : List ((Nat × Nat) × Nat)) (e : UploadErr)
deriving DecidableEq, Repr

/-- Successful chunk writes recorded in the result (Z ranges with attempt counts). -/
def UploadResult.writes : UploadResult → List ((Nat × Nat) × Nat)
  | UploadResult.skipped => []
  | UploadResult.completed w => w
  | UploadResult.raised w _ => w

def finishUpload (r : List ((Nat × Nat) × Nat) × Option UploadErr) : UploadResult :=
  match r.2 with
  | none => UploadResult.completed r.1
  | some e => UploadResult.raised r.1 e

/-- Line 35: `url_exist = BossDBInterface(url).exists`.  Constructing the
interface on a missing URL hits the `return False` path (and hence
TypeError); when construction succeeds the channel exists, so the `exists`
attribute is truthy. -/
def urlExistsCheck (store : StoreResp) : Except UploadErr Bool :=
  match constructBossDBInterface store with
  | ConstructResult.handle => Except.ok true
  | ConstructResult.typeError => Except.error UploadErr.typeError
  | ConstructResult.httpError => Except.error UploadErr.httpError

/-- `bossdb_upload` (export/bossdb.py, lines 15-102).

* `store` — what the remote store reports for `url` (`ok` means the address
  exists);
* `resolution` — forwarded to the `BossDBInterface` constructor (line 45)
  and never examined by the function itself;
* `raw_data` — the optional in-memory array;
* `numImages, imgY, imgX, imgVal` — the sorted glob of image files and
  their decoded pixels;
* `k i` — fault model: how many initial write attempts fail for the chunk
  starting at `i`.

The creation of `boss_dataset` (lines 43-54) is a collaborator call that
succeeds whenever line 35 did; it binds no state the claims need beyond
`resolution` being forwarded, so it is not reified here. -/
def bossdb_upload (store : StoreResp) (resolution : Nat) (raw_data : Option Arr3)
    (numImages imgY imgX : Nat) (imgVal : Nat → Nat → Nat → Int)
    (shape_z upload_increment retry_max : Nat) (overwrite : Bool) (k : Nat → Nat) :
    UploadResult :=
  match urlExistsCheck store with
  | Except.error e => UploadResult.raised [] e
  | Except.ok url_exist =>
    if !overwrite && url_exist then UploadResult.skipped
    else
      match rawTruthy raw_data with
      | Except.error e => UploadResult.raised [] e
      | Except.ok rawTrue =>
        if !rawTrue && (numImages == 0) then UploadResult.raised [] UploadErr.dataJointError
        else
          finishUpload (runChunks retry_max k
            (fun i => stackFor raw_data numImages imgY imgX imgVal shape_z upload_increment i)
            (pyRange 0 shape_z upload_increment))

/-- If every chunk of `is` materializes (`stackAt i = ok (st i)`) and fails at
most `retry_max` times, the whole loop succeeds, writing every chunk with
exactly `k i + 1` attempts. -/
lemma runChunks_ok (rm : Nat) (k : Nat → Nat) (stackAt : Nat → Except UploadErr Arr3)
    (st : Nat → Arr3) :
    ∀ is : List Nat, (∀ i ∈ is, stackAt i = Except.ok (st i)) → (∀ i ∈ is, k i ≤ rm) →
      runChunks rm k stackAt is = (is.map (fun i => ((i, i + (st i).z), k i + 1)), none) := by
  intro is
  induction is with
  | nil => intro _ _; rfl
  | cons i rest ih =>
    intro h1 h2
    have hi1 : stackAt i = Except.ok (st i) := h1 i (List.mem_cons_self i rest)
    have hi2 : k i ≤ rm := h2 i (List.mem_cons_self i rest)
    have hrest := ih (fun j hj => h1 j (List.mem_cons_of_mem i hj))
      (fun j hj => h2 j (List.mem_cons_of_mem i hj))
    simp only [runChunks, hi1, retryLoop_ok (k i) rm hi2 0 (Nat.zero_le _), hrest, List.map_cons]

/-- If every chunk before `c` stays within the retry budget but the chunk at
`c` fails more than `retry_max` times, the loop aborts at `c`, re-raising
with that exact chunk range, and exactly the chunks before `c` stay
committed. -/
lemma runChunks_abort (rm : Nat) (k : Nat → Nat) (stackAt : Nat → Except UploadErr Arr3)
    (st : Nat → Arr3) :
    ∀ (pre : List Nat) (c : Nat) (post : List Nat),
      (∀ i ∈ pre, stackAt i = Except.ok (st i)) → (∀ i ∈ pre, k i ≤ rm) →
      stackAt c = Except.ok (st c) → rm < k c →
      runChunks rm k stackAt (pre ++ c :: post)
        = (pre.map (fun i => ((i, i + (st i).z), k i + 1)),
           some (UploadErr.chunkFailure (c, c + (st c).z))) := by
  intro pre
  induction pre with
  | nil =>
    intro c post _ _ hc hk
    simp only [List.nil_append, runChunks, hc,
      retryLoop_error (k c) rm hk 0 (Nat.zero_le _), List.map_nil]
  | cons i rest ih =>
    intro c post h1 h2 hc hk
    have hi1 : stackAt i = Except.ok (st i) := h1 i (List.mem_cons_self i rest)
    have hi2 : k i ≤ rm := h2 i (List.mem_cons_self i rest)
    have hrest := ih c post (fun j hj => h1 j (List.mem_cons_of_mem i hj))
      (fun j hj => h2 j (List.mem_cons_of_mem i hj)) hc hk
    simp only [List.cons_append, runChunks, hi1,
      retryLoop_ok (k i) rm hi2 0 (Nat.zero_le _), List.append_eq, hrest, List.map_cons]

/-- A fixed 8-slice stack used in concrete retry scenarios. -/
def sampleStack : Arr3 := ⟨8, 100, 100, fun _ _ _ => 0⟩

/-- Counterexample to claim C2 as stated: with `maxRetries = 1` and a write
that fails the first `k = 1 ≥ maxRetries` attempts and then succeeds, the
upload loop does NOT abort — it succeeds after 2 attempts, because line 99
re-raises only when `retry_count > retry_max`. -/
theorem upload_retry_counterexample :
    runChunks 1 (fun _ => 1) (fun _ => Except.ok sampleStack) [0] = ([((0, 8), 2)], none) := by
  exact runChunks_ok 1 (fun _ => 1) (fun _ => Except.ok sampleStack) (fun _ => sampleStack)
    [0] (fun _ _ => rfl) (by decide)

/-- Claim C2, amended: for every chunk, if the write fails the first
`k ≤ maxRetries` times and then succeeds, the overall upload succeeds and
exactly `k + 1` write attempts are made for that chunk; if `k ≥ maxRetries + 1`
the upload aborts, re-raising the error for that exact chunk range, and all
earlier successfully written chunks remain committed (no rollback). -/
theorem upload_retry_amended (rm : Nat) (k : Nat → Nat)
    (stackAt : Nat → Except UploadErr Arr3) (st : Nat → Arr3) :
    (∀ is : List Nat, (∀ i ∈ is, stackAt i = Except.ok (st i)) → (∀ i ∈ is, k i ≤ rm) →
       runChunks rm k stackAt is = (is.map (fun i => ((i, i + (st i).z), k i + 1)), none))
    ∧ (∀ (pre : List Nat) (c : Nat) (post : List Nat),
         (∀ i ∈ pre, stackAt i = Except.ok (st i)) → (∀ i ∈ pre, k i ≤ rm) →
         stackAt c = Except.ok (st c) → rm < k c →
         runChunks rm k stackAt (pre ++ c :: post)
           = (pre.map (fun i => ((i, i + (st i).z), k i + 1)),
              some (UploadErr.chunkFailure (c, c + (st c).z)))) :=
  ⟨runChunks_ok rm k stackAt st, runChunks_abort rm k stackAt st⟩

/-- Witness for the amended C2: budget 2; the chunk at 0 fails once then
succeeds (2 attempts); in the second run the chunk at 8 fails 3 > 2 times, so
the run aborts at `[8, 16)` with chunk `[0, 8)` still committed. -/
theorem upload_retry_amended_witness :
    runChunks 2 (fun i => if i = 8 then 3 else 1) (fun _ => Except.ok sampleStack) [0]
        = ([((0, 8), 2)], none)
    ∧ runChunks 2 (fun i => if i = 8 then 3 else 1) (fun _ => Except.ok sampleStack) [0, 8]
        = ([((0, 8), 2)], some (UploadErr.chunkFailure (8, 16))) := by
  constructor
  · exact (upload_retry_amended 2 (fun i => if i = 8 then 3 else 1)
      (fun _ => Except.ok sampleStack) (fun _ => sampleStack)).1 [0] (fun _ _ => rfl) (by decide)
  · exact (upload_retry_amended 2 (fun i => if i = 8 then 3 else 1)
      (fun _ => Except.ok sampleStack) (fun _ => sampleStack)).2 [0] 8 []
      (fun _ _ => rfl) (by decide) rfl (by decide)

/-- Claim C3: when the target address already exists (`store = ok`) and the
overwrite flag is unset, the upload returns the warning-level skip outcome
before any handle creation or chunk transfer — zero write calls, no error
raised. -/
theorem skip_on_exists :
    ∀ (res : Nat) (raw : Option Arr3) (nI iY iX : Nat) (iV : Nat → Nat → Nat → Int)
      (sz inc rmax : Nat) (k : Nat → Nat),
      bossdb_upload StoreResp.ok res raw nI iY iX iV sz inc rmax false k = UploadResult.skipped
      ∧ (bossdb_upload StoreResp.ok res raw nI iY iX iV sz inc rmax false k).writes = [] := by
  intro res raw nI iY iX iV sz inc rmax k
  exact ⟨rfl, rfl⟩

/-- Claim C6 (code bug): on a missing address the store responds 404, the
handler in `__init__` executes `return False`, and Python turns that into a
raised TypeError — the existence query raises instead of returning false.
Non-404 errors are re-raised, and construction succeeds when the address
exists. -/
theorem missing_url_raises_typeerror :
    constructBossDBInterface StoreResp.http404 = ConstructResult.typeError
    ∧ constructBossDBInterface StoreResp.ok = ConstructResult.handle
    ∧ constructBossDBInterface StoreResp.httpOther = ConstructResult.httpError :=
  ⟨rfl, rfl, rfl⟩

/-- A full-extent in-memory array of shape (20, 100, 100). -/
def bigArr : Arr3 := ⟨20, 100, 100, fun _ _ _ => 0⟩

/-- Claim C4 (code bug): `bossdb_upload` never inspects `resolution` — the
result is identical for every resolution, and an upload against resolution 1
(address existing, overwrite set, 20 image slices, no write faults) proceeds
to perform all three chunk writes and completes; no
UnsupportedOperationError exists anywhere on the path. -/
theorem resolution_not_rejected :
    (∀ (res res' : Nat) (store : StoreResp) (raw : Option Arr3) (nI iY iX : Nat)
       (iV : Nat → Nat → Nat → Int) (sz inc rmax : Nat) (ow : Bool) (k : Nat → Nat),
        bossdb_upload store res raw nI iY iX iV sz inc rmax ow k
          = bossdb_upload store res' raw nI iY iX iV sz inc rmax ow k)
    ∧ bossdb_upload StoreResp.ok 1 none 20 100 100 (fun _ _ _ => 0) 20 8 3 true (fun _ => 0)
        = UploadResult.completed [((0, 8), 1), ((8, 16), 1), ((16, 20), 1)] := by
  constructor
  · intro res res' store raw nI iY iX iV sz inc rmax ow k
    rfl
  · have hrun : runChunks 3 (fun _ => 0)
        (fun i => stackFor none 20 100 100 (fun _ _ _ => 0) 20 8 i) (pyRange 0 20 8)
        = ([((0, 8), 1), ((8, 16), 1), ((16, 20), 1)], none) := by
      rw [pyRange_0_20_8]
      exact runChunks_ok 3 (fun _ => 0)
        (fun i => stackFor none 20 100 100 (fun _ _ _ => 0) 20 8 i)
        (fun i => ⟨min (i + 8) 20 - i, 100, 100, fun _ _ _ => 0⟩)
        [0, 8, 16] (by intro i hi; fin_cases hi <;> rfl) (by decide)
    calc bossdb_upload StoreResp.ok 1 none 20 100 100 (fun _ _ _ => 0) 20 8 3 true (fun _ => 0)
        = finishUpload (runChunks 3 (fun _ => 0)
            (fun i => stackFor none 20 100 100 (fun _ _ _ => 0) 20 8 i) (pyRange 0 20 8)) := rfl
      _ = UploadResult.completed [((0, 8), 1), ((8, 16), 1), ((16, 20), 1)] := by
            rw [hrun]
            rfl

/-- Claim C7 (code bug): with a non-null in-memory array shaped (20, 100, 100),
line 68 evaluates `not raw_data` on a multi-element numpy array, which raises
ValueError before any chunk is materialized or written — no slab is ever
sliced or uploaded. -/
theorem raw_data_truthiness_crash :
    bossdb_upload StoreResp.ok 0 (some bigArr) 0 0 0 (fun _ _ _ => 0) 20 8 3 true (fun _ => 0)
        = UploadResult.raised [] UploadErr.valueError
    ∧ (bossdb_upload StoreResp.ok 0 (some bigArr) 0 0 0 (fun _ _ _ => 0) 20 8 3 true
        (fun _ => 0)).writes = [] :=
  ⟨rfl, rfl⟩

/-! ### Range keys (readers/bossdb.py, lines 114-133)

`_string_to_slice_key` parses `"[a:b,c,d:e]"` into a tuple of slices;
`_slice_key_to_string` is the inverse, but its single-index branch calls
`outputs.apend(...)` — a misspelling of `append`, so Python raises
`AttributeError: 'list' object has no attribute 'apend'` whenever a
unit-length range is serialized. -/

def stripBrackets (s : List Char) : List Char :=
  (((s.dropWhile (fun c => c = '[' || c = ']')).reverse.dropWhile
      (fun c => c = '[' || c = ']')).reverse)

def splitOnChar (c : Char) : List Char → List (List Char)
  | [] => [[]]
  | x :: xs =>
    match splitOnChar c xs with
    | [] => [[]]
    | h :: t => if x = c then [] :: h :: t else (x :: h) :: t

def digitVal (c : Char) : Option Nat :=
  if c.isDigit then some (c.toNat - 48) else none

def digitsToNat (cs : List Char) : Option Nat :=
  cs.foldl (fun acc c =>
    match acc, digitVal c with
    | some n, some d => some (n * 10 + d)
    | _, _ => none) (some 0)

/-- Python's `int(s)` on the strings this code produces: an optional minus
sign followed by at least one digit; anything else raises ValueError
(modelled as `none`). -/
def parseInt (cs : List Char) : Option Int :=
  match cs with
  | [] => none
  | '-' :: rest =>
    if rest.isEmpty then none
    else (digitsToNat rest).map (fun n => -(n : Int))
  | _ => (digitsToNat cs).map (fun n => (n : Int))

/-- One comma-separated segment (lines 117-123): `a:b` becomes `[a, b)`, a
single index `a` becomes `[a, a+1)`; a segment with a wrong number of colons
or a non-integer raises ValueError. -/
def parseSliceItem (cs : List Char) : Option (Int × Int) :=
  if cs.contains ':' then
    match splitOnChar ':' cs with
    | [a, b] =>
      match parseInt a, parseInt b with
      | some s, some t => some (s, t)
      | _, _ => none
    | _ => none
  else (parseInt cs).map (fun s => (s, s + 1))

/-- `_string_to_slice_key` (lines 114-124). -/
def string_to_slice_key (s : String) : Option (List (Int × Int)) :=
  (splitOnChar ',' (stripBrackets s.data)).mapM parseSliceItem

inductive SerErr
  | attributeError
deriving DecidableEq, Repr

/-- The loop body of `_slice_key_to_string` (lines 127-132), in order: a
unit-length item hits the misspelled `outputs.apend` and raises
AttributeError; other items append `"start:stop"`. -/
def serializeItems : List (Int × Int) → Except SerErr (List String)
  | [] => Except.ok []
  | item :: rest =>
    if item.2 = item.1 + 1 then Except.error SerErr.attributeError
    else
      match serializeItems rest with
      | Except.ok l => Except.ok ((toString item.1 ++ ":" ++ toString item.2) :: l)
      | Except.error e => Except.error e

/-- `_slice_key_to_string` (lines 126-133). -/
def slice_key_to_string (key : List (Int × Int)) : Except SerErr String :=
  match serializeItems key with
  | Except.ok outputs => Except.ok ("[" ++ String.intercalate "," outputs ++ "]")
  | Except.error e => Except.error e

/-- Claim C5 (code bug): serializing any tuple that contains a unit-length
range `[a, a+1)` raises AttributeError (the `outputs.apend` typo at line
130), so `[0:1]` never serializes to `"[0]"`; the deserializer itself parses
single-index and `a:b` forms correctly, and the round trip does hold on
tuples without unit-length ranges (concrete instance shown). -/
theorem range_key_serializer_attribute_crash :
    slice_key_to_string [((0 : Int), (1 : Int))] = Except.error SerErr.attributeError
    ∧ string_to_slice_key "[0]" = some [((0 : Int), 1)]
    ∧ string_to_slice_key "[0:8,0:100,0:100]"
        = some [((0 : Int), 8), ((0 : Int), 100), ((0 : Int), 100)]
    ∧ slice_key_to_string [((0 : Int), 8), ((8 : Int), 16)] = Except.ok "[0:8,8:16]"
    ∧ string_to_slice_key "[0:8,8:16]" = some [((0 : Int), 8), ((8 : Int), 16)] := by
  refine ⟨rfl, ?_, ?_, rfl, ?_⟩ <;> decide

/-! ### Reader-side metadata (readers/bossdb.py, lines 54-169)

The DataJoint tables `volume.Resolution` and `volume.Volume` are declared in
`element_volume/volume.py`; `insert1(..., skip_duplicates=True)` is
insert-if-absent keyed on the primary key.  The `volume.Zoom` table and the
`volume.Volume.Slice` table are referenced by this reader but not declared
in the sources; they are modelled from the spec where noted. -/

/-- A record of the `volume.Zoom` table.

Modelled from the spec: the Zoom table itself is absent from the sources
(only its caller `_get_zoom_id` survives); the spec describes a ZoomRegion
as `{id, first_start, first_end, second_start, second_end}` with idempotent
registration keyed on the deterministic id. -/
structure ZoomRec where
  zoom_id : String
  first_start : Nat
  first_end : Nat
  second_start : Nat
  second_end : Nat
deriving DecidableEq, Repr

structure ResolutionRec where
  resolution_id : Nat
  voxel_unit : String
  voxel_z_size : Rat
  voxel_y_size : Rat
  voxel_x_size : Rat
deriving DecidableEq, Repr

structure VolumeRec where
  volume_id : String
  resolution_id : Nat
  z_size : Nat
  y_size : Nat
  x_size : Nat
  channel : String
  url : String
deriving DecidableEq, Repr

/-- One exported image slice.

Modelled from the spec: SliceRecord persistence (`volume.Volume.Slice`) is
absent from the sources (referenced only in a comment at readers/bossdb.py
line 110-111); the spec says export returns one SliceRecord
`{index along partition axis, zoom region, file path}` per file written. -/
structure SliceRecord where
  z : Nat
  zoom_id : String
  file_path : String
deriving DecidableEq, Repr

/-- Observable effects of a `download` call, in program order. -/
inductive DLEvent
  | insertResolution (r : ResolutionRec)
  | insertVolume (v : VolumeRec)
  | insertZoom (z : ZoomRec)
  | writeFile (path : String)
deriving DecidableEq, Repr

def DLEvent.isWriteFile : DLEvent → Bool
  | DLEvent.writeFile _ => true
  | _ => false

/-- DataJoint `insert1(..., skip_duplicates=True)`: insert unless a row with
the same primary key is present (`same` compares primary keys). -/
def insertIfAbsent {α : Type} (same : α → α → Bool) (tbl : List α) (r : α) : List α :=
  if tbl.any (fun q => same q r) then tbl else tbl ++ [r]

lemma insertIfAbsent_idem {α : Type} (same : α → α → Bool) (tbl : List α) (r : α)
    (hr : same r r = true) :
    insertIfAbsent same (insertIfAbsent same tbl r) r = insertIfAbsent same tbl r := by
  unfold insertIfAbsent
  by_cases h : tbl.any (fun q => same q r)
  · simp [h]
  · rw [if_neg h]
    have hall : (tbl ++ [r]).any (fun q => same q r) = true := by
      simp [List.any_append, hr]
    rw [if_pos hall]

def zoomSame (q r : ZoomRec) : Bool := q.zoom_id == r.zoom_id

def resSame (q r : ResolutionRec) : Bool := q.resolution_id == r.resolution_id

def volSame (q r : VolumeRec) : Bool :=
  (q.volume_id == r.volume_id) && (q.resolution_id == r.resolution_id)

/-- The deterministic zoom key `f"X{xs[0]}-{xs[1]}_Y{ys[0]}-{ys[1]}"`. -/
def zoomKeyString (xs ys : Nat × Nat) : String :=
  "X" ++ toString xs.1 ++ "-" ++ toString xs.2 ++ "_Y" ++ toString ys.1
    ++ "-" ++ toString ys.2

/-- `_get_zoom_id(xs, ys)` (readers/bossdb.py, lines 83-100), threaded
through the Zoom table state and emitting the insert call as an event.  On a
3-tuple the slices `_shape[1:3]` (Z-first order) and `_shape[-2::1]` (other
orders) both evaluate to `(shape[1], shape[2])`, hence the identical
branches. -/
def get_zoom_id (shape : Nat × Nat × Nat) (axisFirstZ : Bool) (zooms : List ZoomRec)
    (xs ys : Nat × Nat) : String × List ZoomRec × List DLEvent :=
  let ym_xm := if axisFirstZ then (shape.2.1, shape.2.2) else (shape.2.1, shape.2.2)
  let y_max := ym_xm.1
  let x_max := ym_xm.2
  if xs.1 = 0 ∧ ys.1 = 0 ∧ xs.2 = x_max ∧ ys.2 = y_max then ("Full Image", zooms, [])
  else
    let zoom_id := zoomKeyString xs ys
    let r : ZoomRec := ⟨zoom_id, xs.1, xs.2, ys.1, ys.2⟩
    (zoom_id, insertIfAbsent zoomSame zooms r, [DLEvent.insertZoom r])

/-- Counterexample to claim C8 as stated: a handle whose axis order is not
Z-first reports `shape = (x, y, z) = (50, 100, 20)`, so its full Y/X extent
is the window `X[0,50) × Y[0,100)`.  `_get_zoom_id` nonetheless takes
`y_max, x_max = _shape[-2::1] = (shape[1], shape[2]) = (100, 20)` — the slice
does not reverse, so `x_max` is the Z extent — and the request misses the
full-image branch: it returns the key "X0-50_Y0-100" and performs a zoom
registration instead of yielding "Full Image" with none. -/
theorem zoom_full_extent_counterexample :
    (get_zoom_id (50, 100, 20) false [] (0, 50) (0, 100)).1 = "X0-50_Y0-100"
    ∧ (get_zoom_id (50, 100, 20) false [] (0, 50) (0, 100)).1 ≠ "Full Image"
    ∧ (get_zoom_id (50, 100, 20) false [] (0, 50) (0, 100)).2.1
        = [⟨"X0-50_Y0-100", 0, 50, 0, 100⟩] := by
  refine ⟨?_, ?_, ?_⟩ <;> decide

/-- Claim C8, amended: the zoom id of a bounds tuple is deterministic —
requesting the same bounds twice yields the same id and leaves the
registration state unchanged (no duplicate row), for any handle; and for a
handle in the canonical Z-first axis order, bounds equal to the full Y/X
extent always yield "Full Image" with no registration, whatever the prior
state.  (For a non-Z-first handle the full-plane check compares the X bound
against the Z extent, `_shape[-2::1][1]`, so the "Full Image" guarantee does
not hold there; see the counterexample.) -/
theorem zoom_id_deterministic_idempotent :
    ∀ (shape : Nat × Nat × Nat) (axisZ : Bool) (zooms : List ZoomRec) (xs ys : Nat × Nat),
      ((get_zoom_id shape axisZ ((get_zoom_id shape axisZ zooms xs ys).2.1) xs ys).1
          = (get_zoom_id shape axisZ zooms xs ys).1
        ∧ (get_zoom_id shape axisZ ((get_zoom_id shape axisZ zooms xs ys).2.1) xs ys).2.1
          = (get_zoom_id shape axisZ zooms xs ys).2.1)
      ∧ (get_zoom_id shape true zooms (0, shape.2.2) (0, shape.2.1)).1 = "Full Image"
      ∧ (get_zoom_id shape true zooms (0, shape.2.2) (0, shape.2.1)).2.1 = zooms := by
  intro shape axisZ zooms xs ys
  refine ⟨?_, ?_, ?_⟩
  · by_cases hfull : xs.1 = 0 ∧ ys.1 = 0
        ∧ xs.2 = (if axisZ then (shape.2.1, shape.2.2) else (shape.2.1, shape.2.2)).2
        ∧ ys.2 = (if axisZ then (shape.2.1, shape.2.2) else (shape.2.1, shape.2.2)).1
    · simp only [get_zoom_id, if_pos hfull]
      exact ⟨trivial, trivial⟩
    · simp only [get_zoom_id, if_neg hfull]
      exact ⟨trivial, insertIfAbsent_idem zoomSame zooms _ (by simp [zoomSame])⟩
  · simp [get_zoom_id]
  · simp [get_zoom_id]

/-- A bound remote volume handle: the attributes of `BossDBInterface` that
the reader methods consult.  `voxel_size` and `shape` are reported by the
remote store in the handle's own axis order (`axisFirstZ` is the check
`self.axis_order[0] == "Z"`). -/
structure Handle where
  axisFirstZ : Bool
  resolution : Nat
  voxel_unit : String
  voxel_size : Rat × Rat × Rat
  shape : Nat × Nat × Nat
  collection_name : String
  experiment_name : String
  channel_name : String
  url : String

/-- `_import_resolution` (lines 54-64): the inserted Resolution row, with
voxel sizes normalized to ZYX from the handle's axis order
(`voxel_size[0 if axis_order[0] == "Z" else 2]`, `[1]`,
`[2 if axis_order[0] == "Z" else 0]`). -/
def resolutionRecOf (h : Handle) : ResolutionRec :=
  { resolution_id := h.resolution
    voxel_unit := h.voxel_unit
    voxel_z_size := if h.axisFirstZ then h.voxel_size.1 else h.voxel_size.2.2
    voxel_y_size := h.voxel_size.2.1
    voxel_x_size := if h.axisFirstZ then h.voxel_size.2.2 else h.voxel_size.1 }

/-- `_import_volume` (lines 66-81): the inserted Volume row; the volume id
defaults to `collection_name + "/" + experiment_name` (set in `__init__`),
and the sizes are `shape` normalized to ZYX the same way. -/
def volumeRecOf (h : Handle) : VolumeRec :=
  { volume_id := h.collection_name ++ "/" ++ h.experiment_name
    resolution_id := h.resolution
    z_size := if h.axisFirstZ then h.shape.1 else h.shape.2.2
    y_size := h.shape.2.1
    x_size := if h.axisFirstZ then h.shape.2.2 else h.shape.1
    channel := h.channel_name
    url := h.url }

/-- Follows the spec's words: the handle's reported voxel size, reordered to
the caller's canonical ZYX convention. -/
def zyxVoxelSize (h : Handle) : Rat × Rat × Rat :=
  if h.axisFirstZ then h.voxel_size
  else (h.voxel_size.2.2, h.voxel_size.2.1, h.voxel_size.1)

/-- Follows the spec's words: the handle's reported shape, reordered to the
caller's canonical ZYX convention. -/
def zyxShape (h : Handle) : Nat × Nat × Nat :=
  if h.axisFirstZ then h.shape
  else (h.shape.2.2, h.shape.2.1, h.shape.1)

/-- `f"Res{self.resolution}_Zoom{zoom_id}_Z%d{extension}"` with `%d` filled
by the absolute Z index (lines 148, 156). -/
def sliceFileName (resolution : Nat) (zoom_id : String) (extension : String) (z : Nat) :
    String :=
  "Res" ++ toString resolution ++ "_Zoom" ++ zoom_id ++ "_Z" ++ toString z ++ extension

/-- What `_download_slices` produces: the updated Zoom table, its effect
trace, the written files (path and pixel content), and the slice records.

The `records` field is modelled from the spec (one SliceRecord per file
written); everything else follows the source loop
`for z in range(zs[0], zs[1]): Image.fromarray(data[z - zs[0]]).save(file_path_full % z)`. -/
structure ExportOut where
  zooms : List ZoomRec
  events : List DLEvent
  files : List (String × (Nat → Nat → Int))
  records : List SliceRecord

/-- `_download_slices` (lines 135-156) for a handle in the canonical ZYX
convention: `cut zz yy xx` is the cutout fetched by `_fetch_slice_data`,
indexed relative to the requested ranges; `dir` is the resolved session
directory. -/
def download_slices (h : Handle) (zooms : List ZoomRec) (cut : Nat → Nat → Nat → Int)
    (zs ys xs : Nat × Nat) (dir extension : String) : ExportOut :=
  let z := get_zoom_id h.shape h.axisFirstZ zooms xs ys
  let path := fun zz => dir ++ "/" ++ sliceFileName h.resolution z.1 extension zz
  { zooms := z.2.1
    events := z.2.2 ++ (pyRange zs.1 zs.2 1).map (fun zz => DLEvent.writeFile (path zz))
    files := (pyRange zs.1 zs.2 1).map (fun zz => (path zz, fun yy xx => cut (zz - zs.1) yy xx))
    records := (pyRange zs.1 zs.2 1).map (fun zz => ⟨zz, z.1, path zz⟩) }

lemma pyRange_length_one : ∀ (fuel a b : Nat), b ≤ a + fuel →
    (pyRange a b 1).length = b - a := by
  intro fuel
  induction fuel with
  | zero =>
    intro a b h
    rw [pyRange_eq, if_neg (by omega)]
    simp
    omega
  | succ fuel ih =>
    intro a b h
    by_cases hab : a < b
    · rw [pyRange_eq, if_pos ⟨by omega, hab⟩, List.length_cons, ih (a + 1) b (by omega)]
      omega
    · rw [pyRange_eq, if_neg (by omega)]
      simp
      omega

lemma pyRange_len1 (a b : Nat) : (pyRange a b 1).length = b - a :=
  pyRange_length_one b a b (by omega)

/-- A full-resolution ZYX handle of shape (20, 100, 100), for the concrete
export scenario. -/
def fullHandle : Handle :=
  ⟨true, 0, "micrometers", (1, 1, 1), (20, 100, 100), "col", "exp", "chan", "bossdb://col/exp/chan"⟩

/-- Claim C9: exporting the Z range `[z0, z1)` writes exactly `z1 - z0` image
files, each named by the pattern `Res{resolution}_Zoom{zoom_id}_Z{z}{ext}`
at the absolute Z index, with one SliceRecord per file written; concretely,
exporting Z range `[0:20]` of the full-extent window of a (20,100,100)
handle yields exactly 20 SliceRecords, all referencing zoom id
"Full Image". -/
theorem export_slice_records :
    ∀ (h : Handle) (zooms : List ZoomRec) (cut : Nat → Nat → Nat → Int)
      (zs ys xs : Nat × Nat) (dir ext : String),
      ((download_slices h zooms cut zs ys xs dir ext).files).length = zs.2 - zs.1
      ∧ ((download_slices h zooms cut zs ys xs dir ext).records).length = zs.2 - zs.1
      ∧ (download_slices h zooms cut zs ys xs dir ext).records
          = (pyRange zs.1 zs.2 1).map (fun zz =>
              ⟨zz, (get_zoom_id h.shape h.axisFirstZ zooms xs ys).1,
                dir ++ "/" ++ sliceFileName h.resolution
                  ((get_zoom_id h.shape h.axisFirstZ zooms xs ys).1) ext zz⟩)
      ∧ (download_slices fullHandle [] cut (0, 20) (0, 100) (0, 100) dir ext).records.length
          = 20
      ∧ ((download_slices fullHandle [] cut (0, 20) (0, 100) (0, 100) dir ext).records).all
          (fun r => r.zoom_id == "Full Image") = true := by
  intro h zooms cut zs ys xs dir ext
  refine ⟨?_, ?_, rfl, ?_, ?_⟩
  · show ((pyRange zs.1 zs.2 1).map _).length = zs.2 - zs.1
    rw [List.length_map, pyRange_len1]
  · show ((pyRange zs.1 zs.2 1).map _).length = zs.2 - zs.1
    rw [List.length_map, pyRange_len1]
  · show ((pyRange 0 20 1).map _).length = 20
    rw [List.length_map, pyRange_len1]
  · show ((pyRange 0 20 1).map _).all _ = true
    apply List.all_eq_true.mpr
    intro r hr
    obtain ⟨zz, hzz, rfl⟩ := List.mem_map.mp hr
    rfl

/-- The metadata store state: the three tables the reader writes to. -/
structure DB where
  resolutions : List ResolutionRec
  volumes : List VolumeRec
  zooms : List ZoomRec

/-- `download` (readers/bossdb.py, lines 158-169) for an already-parsed
(tuple-form) slice key in canonical ZYX order: `_import_resolution()`, then
`_import_volume()`, then — only if `save_images` — `_download_slices`.
Returns the updated store state and the trace of effects in program order. -/
def download (h : Handle) (db : DB) (cut : Nat → Nat → Nat → Int) (zs ys xs : Nat × Nat)
    (save_images : Bool) (dir ext : String) : DB × List DLEvent :=
  let r := resolutionRecOf h
  let v := volumeRecOf h
  let db1 : DB := { db with resolutions := insertIfAbsent resSame db.resolutions r }
  let db2 : DB := { db1 with volumes := insertIfAbsent volSame db1.volumes v }
  if save_images then
    let out := download_slices h db2.zooms cut zs ys xs dir ext
    ({ db2 with zooms := out.zooms },
     DLEvent.insertResolution r :: DLEvent.insertVolume v :: out.events)
  else (db2, [DLEvent.insertResolution r, DLEvent.insertVolume v])

lemma download_resolutions (h : Handle) (db : DB) (cut : Nat → Nat → Nat → Int)
    (zs ys xs : Nat × Nat) (save : Bool) (dir ext : String) :
    (download h db cut zs ys xs save dir ext).1.resolutions
      = insertIfAbsent resSame db.resolutions (resolutionRecOf h) := by
  cases save <;> rfl

lemma download_volumes (h : Handle) (db : DB) (cut : Nat → Nat → Nat → Int)
    (zs ys xs : Nat × Nat) (save : Bool) (dir ext : String) :
    (download h db cut zs ys xs save dir ext).1.volumes
      = insertIfAbsent volSame db.volumes (volumeRecOf h) := by
  cases save <;> rfl

/-- Claim C10: every `download` call emits the Resolution insert and then the
Volume insert — both derived from the handle's own reported voxel size, axis
order and shape, normalized to ZYX — before any slice file write; the
inserts are insert-if-absent (re-running `download` leaves both tables
unchanged); and with `save_images` unset no file is written at all. -/
theorem download_registers_metadata_first :
    ∀ (h : Handle) (db : DB) (cut : Nat → Nat → Nat → Int) (zs ys xs : Nat × Nat)
      (save : Bool) (dir ext : String),
      (download h db cut zs ys xs save dir ext).2
        = DLEvent.insertResolution (resolutionRecOf h)
            :: DLEvent.insertVolume (volumeRecOf h)
            :: (if save then (download_slices h db.zooms cut zs ys xs dir ext).events else [])
      ∧ ((download h db cut zs ys xs false dir ext).2.all (fun e => !e.isWriteFile)) = true
      ∧ ((resolutionRecOf h).voxel_z_size = (zyxVoxelSize h).1
          ∧ (resolutionRecOf h).voxel_y_size = (zyxVoxelSize h).2.1
          ∧ (resolutionRecOf h).voxel_x_size = (zyxVoxelSize h).2.2
          ∧ (volumeRecOf h).z_size = (zyxShape h).1
          ∧ (volumeRecOf h).y_size = (zyxShape h).2.1
          ∧ (volumeRecOf h).x_size = (zyxShape h).2.2)
      ∧ ((download h (download h db cut zs ys xs save dir ext).1 cut zs ys xs save dir ext).1.resolutions
          = (download h db cut zs ys xs save dir ext).1.resolutions
        ∧ (download h (download h db cut zs ys xs save dir ext).1 cut zs ys xs save dir ext).1.volumes
          = (download h db cut zs ys xs save dir ext).1.volumes) := by
  intro h db cut zs ys xs save dir ext
  refine ⟨?_, rfl, ?_, ?_, ?_⟩
  · cases save <;> rfl
  · obtain ⟨az, res, vu, vs, sh, c, e, ch, u⟩ := h
    cases az <;> exact ⟨rfl, rfl, rfl, rfl, rfl, rfl⟩
  · rw [download_resolutions, download_resolutions]
    exact insertIfAbsent_idem resSame db.resolutions (resolutionRecOf h) (by simp [resSame])
  · rw [download_volumes, download_volumes]
    exact insertIfAbsent_idem volSame db.volumes (volumeRecOf h) (by simp [volSame])
